import Mathlib

/-!
Verification of the ASDL runtime (`asdl/py_meta.py`) and the typed arithmetic
parser (`asdl/typed_arith_parse.py`) of this repository.

The Python sources are shallowly embedded: Python values become an inductive
`PyVal`, ASDL type descriptors become `TypeDesc`, the dynamically generated
`DebugCompoundObj` classes become explicit field lists plus an `Inst` state
record, and every exception the source can raise becomes an `Except` error
constructor.  The `tdop` parser engine, the `asdl_` descriptor classes, the
`const` module and the generated `typed_arith_asdl` types are not part of the
sources; where they are needed they are modelled from the specification and
marked as such.
-/

namespace Oil

/-- Model of a Python runtime value as it flows through `py_meta.py`.

`obj id` is an instance of a generated ASDL class whose class-level
`ASDL_TYPE` descriptor has identity `id` (descriptor identity `is` in the
source is modelled as equality of these ids, which are assumed globally
unique within one registry).  `hostObj n` is an instance of an externally
supplied host type named `n` (the `asdl.UserType` case).  Values with no
`ASDL_TYPE` attribute (primitives, lists, `None`, host objects) hit the
`AttributeError` branch of `_CheckType`. -/
inductive PyVal where
  | none
  | bool (b : Bool)
  | int (i : Int)
  | str (s : String)
  | list (xs : List PyVal)
  | obj (asdlTypeId : String)
  | hostObj (typeName : String)

/-- Model of the `asdl_` descriptor objects held in `ASDL_TYPE`
(`StrType`, `IntType`, `BoolType`, `UserType`, `MaybeType`, `ArrayType`,
`Product`, `Sum`, `Constructor`).  The `asdl_` module itself is not under the
sources; the shape of each descriptor is modelled from the specification's
TypeDescriptor data model.  `sumT` carries the compiled `is_simple` flag and
the identities of its constructor descriptors; `productT`, `sumT` and `consT`
carry the identity used for the source's `is` comparisons. -/
inductive TypeDesc where
  | strT
  | intT
  | boolT
  | userT (typeName : String)
  | maybeT (d : TypeDesc)
  | arrayT (d : TypeDesc)
  | productT (id : String)
  | sumT (id : String) (simple : Bool) (consIds : List String)
  | consT (id : String)
  deriving DecidableEq, Repr

/-- Python `isinstance(value, str)`. -/
def isinstanceStr : PyVal → Bool
  | PyVal.str _ => true
  | _ => false

/-- Python `isinstance(value, int)`.  In Python `bool` is a subclass of
`int`, so `isinstance(True, int)` is `True`. -/
def isinstanceInt : PyVal → Bool
  | PyVal.int _ => true
  | PyVal.bool _ => true
  | _ => false

/-- Python `isinstance(value, bool)`. -/
def isinstanceBool : PyVal → Bool
  | PyVal.bool _ => true
  | _ => false

/-- The `for item in value` loop of the `ArrayType` case of `_CheckType`:
every entry must check (via `f`, the check against the element descriptor);
an `AssertionError` raised on an entry propagates. -/
def _CheckTypeList (f : PyVal → Option Bool) : List PyVal → Option Bool
  | [] => some true
  | x :: xs =>
      match f x with
      | Option.none => Option.none
      | some false => some false
      | some true => _CheckTypeList f xs

/-- Embedding of `_CheckType(value, expected_desc)` from `py_meta.py`, with
the descriptor first so the recursion is structural on it.

Returns `some b` when the source returns the boolean `b`, and `none` when the
source raises `AssertionError` (a `Constructor` used as a field descriptor;
an unrecognized descriptor cannot occur because `TypeDesc` is closed). -/
def _CheckTypeD : TypeDesc → PyVal → Option Bool
  | TypeDesc.consT _, _ => Option.none
  | TypeDesc.maybeT d, v =>
      match v with
      | PyVal.none => some true
      | _ => _CheckTypeD d v
  | TypeDesc.arrayT d, v =>
      match v with
      | PyVal.list xs => _CheckTypeList (_CheckTypeD d) xs
      | _ => some false
  | TypeDesc.strT, v => some (isinstanceStr v)
  | TypeDesc.intT, v => some (isinstanceInt v)
  | TypeDesc.boolT, v => some (isinstanceBool v)
  | TypeDesc.userT n, v =>
      some (match v with
            | PyVal.hostObj m => n = m
            | _ => false)
  | TypeDesc.productT pid, v =>
      some (match v with
            | PyVal.obj a => a = pid
            | _ => false)
  | TypeDesc.sumT sid simple consIds, v =>
      some (match v with
            | PyVal.obj a => if simple then a = sid else consIds.contains a
            | _ => false)

/-- `_CheckType(value, expected_desc)` in the source's argument order. -/
def _CheckType (v : PyVal) (d : TypeDesc) : Option Bool := _CheckTypeD d v

/-- The ordered field list of a generated class, i.e. the result of
`ASDL_TYPE.GetFields()`: pairs of field name and descriptor. -/
abbrev Fields := List (String × TypeDesc)

/-- `ASDL_TYPE.GetFieldNames()`: the field names in declaration order. -/
def fieldNames (fields : Fields) : List String := fields.map Prod.fst

/-- The mutable state of a `DebugCompoundObj` instance: its `__dict__` of
field values and its `_assigned` dictionary. -/
structure Inst where
  dict : List (String × PyVal)
  assigned : List (String × Bool)

/-- The exceptions construction can raise, one constructor per `raise` site:
`attrError` is `__setattr__`'s `AttributeError` for an unknown field,
`invalidDescriptor` is the `AssertionError` raised inside `_CheckType`,
`typeAssert` is `__setattr__`'s `AssertionError` on a failed check,
`keyError` is the `KeyError` from `self._assigned[name]` on an unknown
keyword, `dupAssign` is `_Init`'s `TypeError` for a duplicate assignment,
`missingField` is `_Init`'s `ValueError` for a required field, and
`indexError` is the `IndexError` from `field_names[i]`. -/
inductive InitErr where
  | attrError (field : String)
  | invalidDescriptor (field : String)
  | typeAssert (field : String)
  | keyError (field : String)
  | dupAssign (field : String)
  | missingField (field : String)
  | indexError
  deriving DecidableEq, Repr

/-- Dictionary read: the value stored under key `n`, if any. -/
def lookupB (m : List (String × Bool)) (n : String) : Option Bool :=
  (m.find? (fun p => p.1 = n)).map Prod.snd

/-- `ASDL_TYPE.LookupFieldType(name)`: the descriptor declared for a field. -/
def lookupField (fields : Fields) (n : String) : Option TypeDesc :=
  (fields.find? (fun p => p.1 = n)).map Prod.snd

/-- Dictionary write `self._assigned[name] = True`. -/
def setB (m : List (String × Bool)) (n : String) : List (String × Bool) :=
  m.map (fun p => if p.1 = n then (p.1, true) else p)

/-- Dictionary write `self.__dict__[name] = value`. -/
def setV (m : List (String × PyVal)) (n : String) (v : PyVal) :
    List (String × PyVal) :=
  if m.any (fun p => p.1 = n) then
    m.map (fun p => if p.1 = n then (p.1, v) else p)
  else
    m ++ [(n, v)]

/-- Embedding of `DebugCompoundObj.__setattr__` (the type-checking branch):
look up the field's descriptor (`AttributeError` if absent), run
`_CheckType` (`AssertionError` on mismatch), then record the value and mark
the field assigned. -/
def setattr_ (fields : Fields) (inst : Inst) (n : String) (v : PyVal) :
    Except InitErr Inst :=
  match lookupField fields n with
  | Option.none => Except.error (InitErr.attrError n)
  | some desc =>
      match _CheckType v desc with
      | Option.none => Except.error (InitErr.invalidDescriptor n)
      | some false => Except.error (InitErr.typeAssert n)
      | some true =>
          Except.ok { dict := setV inst.dict n v,
                      assigned := setB inst.assigned n }

/-- `const.NO_INTEGER`.  Modelled from the spec: the `const` module is not
under the sources; the spec requires an explicit "unset" sentinel matched to
the wrapped type for `Maybe(Int)` fields.  The concrete value is irrelevant
to every claim. -/
def NO_INTEGER : Int := -1

/-- The default value `_SetDefaults` chooses for a `Maybe`-typed field,
matched on the wrapped descriptor. -/
def defaultFor (child : TypeDesc) : PyVal :=
  match child with
  | TypeDesc.intT => PyVal.int NO_INTEGER
  | TypeDesc.strT => PyVal.str ""
  | _ => PyVal.none

/-- Embedding of `DebugCompoundObj._SetDefaults`: walk the declared fields;
a `Maybe` field is assigned its unset sentinel and an `Array` field an empty
list, both through `__setattr__` (so they are marked assigned); every other
field is left untouched. -/
def _SetDefaults (fields : Fields) : List (String × TypeDesc) → Inst →
    Except InitErr Inst
  | [], inst => Except.ok inst
  | (n, d) :: rest, inst =>
      match d with
      | TypeDesc.maybeT child =>
          match setattr_ fields inst n (defaultFor child) with
          | Except.error e => Except.error e
          | Except.ok inst' => _SetDefaults fields rest inst'
      | TypeDesc.arrayT _ =>
          match setattr_ fields inst n (PyVal.list []) with
          | Except.error e => Except.error e
          | Except.ok inst' => _SetDefaults fields rest inst'
      | _ => _SetDefaults fields rest inst

/-- The positional loop of `_Init`: `for i, val in enumerate(args):
name = field_names[i]; setattr(name, val)`.  Walking the names and the
values in parallel is the same as indexing, and `field_names[i]` with `i`
past the end raises `IndexError`. -/
def applyArgs (fields : Fields) : List String → Inst → List PyVal →
    Except InitErr Inst
  | _, inst, [] => Except.ok inst
  | [], _, _ :: _ => Except.error InitErr.indexError
  | n :: ns, inst, v :: vs =>
      match setattr_ fields inst n v with
      | Except.error e => Except.error e
      | Except.ok inst' => applyArgs fields ns inst' vs

/-- The keyword loop of `_Init`: `self._assigned[name]` raises `KeyError`
for an unknown keyword; a field already marked assigned raises the
`TypeError` "Duplicate assignment"; otherwise the value goes through
`__setattr__`. -/
def applyKwargs (fields : Fields) : Inst → List (String × PyVal) →
    Except InitErr Inst
  | inst, [] => Except.ok inst
  | inst, (n, v) :: rest =>
      match lookupB inst.assigned n with
      | Option.none => Except.error (InitErr.keyError n)
      | some true => Except.error (InitErr.dupAssign n)
      | some false =>
          match setattr_ fields inst n v with
          | Except.error e => Except.error e
          | Except.ok inst' => applyKwargs fields inst' rest

/-- The final loop of `_Init`: `for name in field_names: if not
self._assigned[name]: raise ValueError(...)`.  The loop raises on the
first unassigned name it reaches and checks nothing after it. -/
def requiredCheck (inst : Inst) : List String → Except InitErr Unit
  | [] => Except.ok ()
  | n :: ns =>
      match lookupB inst.assigned n with
      | some true => requiredCheck inst ns
      | some false => Except.error (InitErr.missingField n)
      | Option.none => Except.error (InitErr.keyError n)

/-- Embedding of `DebugCompoundObj._Init(args, kwargs)`: positional values,
then keyword values, then the required-field sweep. -/
def _Init (fields : Fields) (inst : Inst) (args : List PyVal)
    (kwargs : List (String × PyVal)) : Except InitErr Inst :=
  match applyArgs fields (fieldNames fields) inst args with
  | Except.error e => Except.error e
  | Except.ok i1 =>
      match applyKwargs fields i1 kwargs with
      | Except.error e => Except.error e
      | Except.ok i2 =>
          match requiredCheck i2 (fieldNames fields) with
          | Except.error e => Except.error e
          | Except.ok _ => Except.ok i2

/-- The `_assigned` dictionary as `__init__` first builds it:
`{f: False for f in self.ASDL_TYPE.GetFieldNames()}`, with an empty
`__dict__`. -/
def initialInst (fields : Fields) : Inst :=
  { dict := [], assigned := (fieldNames fields).map (fun n => (n, false)) }

/-- Embedding of `DebugCompoundObj.__init__(*args, **kwargs)` — the spec's
`Construct`: initialize `_assigned`, run `_SetDefaults`, and call `_Init`
only when at least one positional or keyword value was supplied. -/
def construct (fields : Fields) (args : List PyVal)
    (kwargs : List (String × PyVal)) : Except InitErr Inst :=
  match _SetDefaults fields fields (initialInst fields) with
  | Except.error e => Except.error e
  | Except.ok inst =>
      if args.isEmpty && kwargs.isEmpty then Except.ok inst
      else _Init fields inst args kwargs

/-- A constructor of a Sum definition as the schema compiler sees it
(`asdl.Constructor`): a name and an ordered field list. -/
structure ConsDef where
  name : String
  fields : List (String × TypeDesc)
  deriving DecidableEq, Repr

/-- `asdl.is_simple`.  Modelled from the spec: the `asdl_` module is not
under the sources; a Sum is simple exactly when no constructor has fields. -/
def is_simple (cs : List ConsDef) : Bool :=
  cs.all (fun c => c.fields = [])

/-- The tag assignment of the compound-Sum branch of `MakeTypes`:
`for i, cons in enumerate(sum_type.types): tag = i + 1;
tag_num[cons.name] = tag` — each constructor is paired with one plus its
0-based position in declaration order. -/
def sumConsTags (cs : List ConsDef) : List (String × Nat) :=
  cs.enum.map (fun p => (p.2.name, p.1 + 1))

/-- The enum ids of the simple-Sum branch of `MakeTypes`:
`enum_id = i + 1` in declaration order. -/
def simpleSumIds (cs : List ConsDef) : List (String × Nat) :=
  cs.enum.map (fun p => (p.2.name, p.1 + 1))

/-! ## The typed arithmetic parser (`asdl/typed_arith_parse.py`)

The generic `tdop` engine (`ParserSpec`, `Parser.ParseUntil`, `Tokenize`) is
not under the sources; it is modelled from the specification's
Operator-Precedence Parser Engine section.  The grammar handlers and the
precedence table are translated directly from `typed_arith_parse.py`. -/

/-- A lexer token.  Modelled from the spec: the lexer is an external
collaborator producing a stream of `{type, value}` tokens; an operator token
carries its lexeme as both its type and its value, a literal or identifier
carries the kind (`"number"`/`"name"`) as its type and the lexeme as its
value, and the stream ends with an `"eof"` token. -/
structure Token where
  type : String
  val : String
  deriving DecidableEq, Repr

/-- The `arith_expr` tree.  Modelled from the spec: the generated
`typed_arith_asdl` module is not under the sources; the constructors are the
ones the grammar handlers build (`Const`, `ArithVar`, `ArithUnary`,
`ArithBinary`, `Ternary`, `Index`, `Slice`, `FuncCall`), with operator names
and literals carried as the token values the handlers pass in. -/
inductive ArithExpr where
  | Const (val : String)
  | ArithVar (name : String)
  | ArithUnary (op : String) (child : ArithExpr)
  | ArithBinary (op : String) (left : ArithExpr) (right : ArithExpr)
  | Ternary (cond : ArithExpr) (tru : ArithExpr) (fls : ArithExpr)
  | Index (obj : ArithExpr) (idx : ArithExpr)
  | Slice (obj : ArithExpr) (lo : ArithExpr) (hi : ArithExpr)
      (step : Option ArithExpr)
  | FuncCall (name : String) (args : List ArithExpr)

/-- The failures a parse can raise, one constructor per `raise` site:
`unexpectedToken` covers both a token with no null handler and `NullError`;
`cantAssign`, `cantIndex` and `cantCall` are the `ParseError`s of the
inc/dec, index and call handlers; `expected` is `Eat`'s mismatch error;
`assertionFail` is `NullConstant`'s `AssertionError` on an unknown token
type; `unexpectedEnd` stands for reading past the token stream; `outOfFuel`
is an artifact of the bounded recursion and is never produced when the
recursion bound is large enough. -/
inductive ParseErr where
  | unexpectedToken (t : Token)
  | cantAssign
  | cantIndex
  | cantCall
  | expected (ty : String)
  | assertionFail
  | unexpectedEnd
  | outOfFuel
  deriving DecidableEq, Repr

/-- The null handlers registered by `MakeShellParserSpec`, as a closed
enumeration (the source stores function values in the table). -/
inductive NudKind where
  | constant
  | paren
  | prefixOp
  | incDec
  | nullError
  deriving DecidableEq, Repr

/-- The left handlers registered by `MakeShellParserSpec`, as a closed
enumeration (the source stores function values in the table). -/
inductive LedKind where
  | incDec
  | index
  | ternary
  | binaryOp
  | assign
  | funcCall
  deriving DecidableEq, Repr

/-- `COMMA_PREC = 1`: the binding power `LeftFuncCall` passes to
`ParseUntil` for each argument, and also the binding power at which the
bare `,` operator is registered. -/
def COMMA_PREC : Int := 1

/-- The null-handler table built by `MakeShellParserSpec`, keyed by token
type: binding power handed to the handler, and the handler. -/
def nullLookup (t : String) : Option (Int × NudKind) :=
  if t = "++" ∨ t = "--" then some (29, NudKind.incDec)
  else if t = "+" ∨ t = "!" ∨ t = "~" ∨ t = "-" then some (29, NudKind.prefixOp)
  else if t = "(" then some (0, NudKind.paren)
  else if t = "name" ∨ t = "number" then some (-1, NudKind.constant)
  else if t = ")" ∨ t = "]" ∨ t = ":" ∨ t = "eof" then some (-1, NudKind.nullError)
  else Option.none

/-- The left-handler table built by `MakeShellParserSpec`, keyed by token
type: left binding power, right binding power handed to the handler, and the
handler.  Modelled from the spec for the `tdop` registration helpers:
`spec.Left(bp, ...)` stores `(bp, bp)` and `spec.LeftRightAssoc(bp, ...)`
stores `(bp, bp - 1)` so that a right-associative operator recurses with a
bound one below its own binding power. -/
def leftLookup (t : String) : Option (Int × Int × LedKind) :=
  if t = "++" ∨ t = "--" then some (31, 31, LedKind.incDec)
  else if t = "(" then some (31, 31, LedKind.funcCall)
  else if t = "[" then some (31, 31, LedKind.index)
  else if t = "**" then some (27, 27 - 1, LedKind.binaryOp)
  else if t = "*" ∨ t = "/" ∨ t = "%" then some (25, 25, LedKind.binaryOp)
  else if t = "+" ∨ t = "-" then some (23, 23, LedKind.binaryOp)
  else if t = "<<" ∨ t = ">>" then some (21, 21, LedKind.binaryOp)
  else if t = "<" ∨ t = ">" ∨ t = "<=" ∨ t = ">=" then
    some (19, 19, LedKind.binaryOp)
  else if t = "!=" ∨ t = "==" then some (17, 17, LedKind.binaryOp)
  else if t = "&" then some (15, 15, LedKind.binaryOp)
  else if t = "^" then some (13, 13, LedKind.binaryOp)
  else if t = "|" then some (11, 11, LedKind.binaryOp)
  else if t = "&&" then some (9, 9, LedKind.binaryOp)
  else if t = "||" then some (7, 7, LedKind.binaryOp)
  else if t = "?" then some (5, 5 - 1, LedKind.ternary)
  else if t = "=" ∨ t = "+=" ∨ t = "-=" ∨ t = "*=" ∨ t = "/=" ∨ t = "%=" ∨
          t = "<<=" ∨ t = ">>=" ∨ t = "&=" ∨ t = "^=" ∨ t = "|=" then
    some (3, 3 - 1, LedKind.assign)
  else if t = "," then some (COMMA_PREC, COMMA_PREC, LedKind.binaryOp)
  else Option.none

/-- `p.AtToken(ty)`: does the current token have this type? -/
def atToken (ty : String) : List Token → Bool
  | [] => false
  | t :: _ => t.type = ty

/-- `p.Eat(ty)`: consume the current token when its type matches, fail
otherwise. -/
def eat (ty : String) (ts : List Token) : Except ParseErr (List Token) :=
  match ts with
  | [] => Except.error (ParseErr.expected ty)
  | t :: rest => if t.type = ty then Except.ok rest
                 else Except.error (ParseErr.expected ty)

/-- The assignable-target test shared by the inc/dec and assignment
handlers: `isinstance(node, (arith_expr.ArithVar, arith_expr.Index))`. -/
def isAssignable : ArithExpr → Bool
  | ArithExpr.ArithVar _ => true
  | ArithExpr.Index _ _ => true
  | _ => false

/-- Result of a parsing step: the expression built so far and the remaining
token stream (the parser keeps a single token of lookahead; the head of the
list is the current token). -/
abbrev PResult := Except ParseErr (ArithExpr × List Token)

mutual

/-- `Parser.ParseUntil(rbp)`, modelled from the spec's algorithm: consume
the current token, fail when it has no null handler, run the null handler,
then fold left handlers while the next token's left binding power is
strictly greater than `rbp`.  `fuel` bounds the recursion depth; every
recursive call strictly decreases it. -/
def parseUntil : Nat → Int → List Token → PResult
  | 0, _, _ => Except.error ParseErr.outOfFuel
  | fuel + 1, rbp, ts =>
      match ts with
      | [] => Except.error ParseErr.unexpectedEnd
      | t :: rest =>
          match nullLookup t.type with
          | Option.none => Except.error (ParseErr.unexpectedToken t)
          | some (bp, k) =>
              match runNud fuel k t bp rest with
              | Except.error e => Except.error e
              | Except.ok (left, ts') => leftLoop fuel rbp left ts'

/-- Step 3 of `ParseUntil`: while the current token's left binding power is
strictly greater than the bound, advance and run its left handler on the
accumulated left expression. -/
def leftLoop : Nat → Int → ArithExpr → List Token → PResult
  | 0, _, _, _ => Except.error ParseErr.outOfFuel
  | fuel + 1, rbp, left, ts =>
      match ts with
      | [] => Except.ok (left, [])
      | t :: rest =>
          match leftLookup t.type with
          | Option.none => Except.ok (left, t :: rest)
          | some (lbp, rbp2, k) =>
              if lbp > rbp then
                match runLed fuel k t left rbp2 rest with
                | Except.error e => Except.error e
                | Except.ok (left', ts') => leftLoop fuel rbp left' ts'
              else Except.ok (left, t :: rest)

/-- The null handlers of `typed_arith_parse.py`, dispatched on the table
entry: `NullConstant`, `NullParen`, `NullPrefixOp`, `NullIncDec` and
`tdop.NullError`.  The token has already been consumed, as in the source. -/
def runNud : Nat → NudKind → Token → Int → List Token → PResult
  | 0, _, _, _, _ => Except.error ParseErr.outOfFuel
  | fuel + 1, k, t, bp, ts =>
      match k with
      | NudKind.constant =>
          if t.type = "number" then Except.ok (ArithExpr.Const t.val, ts)
          else if t.type = "name" then Except.ok (ArithExpr.ArithVar t.val, ts)
          else Except.error ParseErr.assertionFail
      | NudKind.paren =>
          match parseUntil fuel bp ts with
          | Except.error e => Except.error e
          | Except.ok (r, ts') =>
              match eat ")" ts' with
              | Except.error e => Except.error e
              | Except.ok ts'' => Except.ok (r, ts'')
      | NudKind.prefixOp =>
          match parseUntil fuel bp ts with
          | Except.error e => Except.error e
          | Except.ok (r, ts') =>
              Except.ok (ArithExpr.ArithUnary t.val r, ts')
      | NudKind.incDec =>
          match parseUntil fuel bp ts with
          | Except.error e => Except.error e
          | Except.ok (r, ts') =>
              if isAssignable r then
                Except.ok (ArithExpr.ArithUnary t.val r, ts')
              else Except.error ParseErr.cantAssign
      | NudKind.nullError => Except.error (ParseErr.unexpectedToken t)

/-- The left handlers of `typed_arith_parse.py`, dispatched on the table
entry: `LeftIncDec`, `LeftIndex`, `LeftTernary`, `LeftBinaryOp`,
`LeftAssign` and `LeftFuncCall`.  `rbp` is the right binding power stored in
the table for this operator. -/
def runLed : Nat → LedKind → Token → ArithExpr → Int → List Token → PResult
  | 0, _, _, _, _, _ => Except.error ParseErr.outOfFuel
  | fuel + 1, k, t, left, rbp, ts =>
      match k with
      | LedKind.incDec =>
          -- LeftIncDec: the source mutates `token.type = 'post' + token.type`
          -- before wrapping, but builds the node from `token.val`, which the
          -- mutation leaves unchanged; the consumed token is never read
          -- again, so only `token.val` reaches the tree.
          if isAssignable left then
            Except.ok (ArithExpr.ArithUnary t.val left, ts)
          else Except.error ParseErr.cantAssign
      | LedKind.index =>
          match left with
          | ArithExpr.ArithVar _ =>
              (match parseUntil fuel 0 ts with
               | Except.error e => Except.error e
               | Except.ok (idx, ts1) =>
                   if atToken ":" ts1 then
                     match parseUntil fuel 0 (ts1.drop 1) with
                     | Except.error e => Except.error e
                     | Except.ok (hi, ts2) =>
                         match eat "]" ts2 with
                         | Except.error e => Except.error e
                         | Except.ok ts3 =>
                             -- `if end:` — a tree node is always truthy
                             Except.ok
                               (ArithExpr.Slice left idx hi Option.none, ts3)
                   else
                     match eat "]" ts1 with
                     | Except.error e => Except.error e
                     | Except.ok ts2 =>
                         Except.ok (ArithExpr.Index left idx, ts2))
          | _ => Except.error ParseErr.cantIndex
      | LedKind.ternary =>
          match parseUntil fuel rbp ts with
          | Except.error e => Except.error e
          | Except.ok (tru, ts1) =>
              match eat ":" ts1 with
              | Except.error e => Except.error e
              | Except.ok ts2 =>
                  match parseUntil fuel rbp ts2 with
                  | Except.error e => Except.error e
                  | Except.ok (fls, ts3) =>
                      Except.ok (ArithExpr.Ternary left tru fls, ts3)
      | LedKind.binaryOp =>
          match parseUntil fuel rbp ts with
          | Except.error e => Except.error e
          | Except.ok (r, ts') =>
              Except.ok (ArithExpr.ArithBinary t.val left r, ts')
      | LedKind.assign =>
          if isAssignable left then
            match parseUntil fuel rbp ts with
            | Except.error e => Except.error e
            | Except.ok (r, ts') =>
                Except.ok (ArithExpr.ArithBinary t.val left r, ts')
          else Except.error ParseErr.cantAssign
      | LedKind.funcCall =>
          match left with
          | ArithExpr.ArithVar fname => parseArgs fuel fname [] ts
          | _ => Except.error ParseErr.cantCall

/-- The argument loop of `LeftFuncCall`: until the current token is `)`,
parse one argument at `COMMA_PREC` and skip a following `,`; finally eat
the `)` and build the call node. -/
def parseArgs : Nat → String → List ArithExpr → List Token → PResult
  | 0, _, _, _ => Except.error ParseErr.outOfFuel
  | fuel + 1, fname, acc, ts =>
      if atToken ")" ts then
        match eat ")" ts with
        | Except.error e => Except.error e
        | Except.ok ts' => Except.ok (ArithExpr.FuncCall fname acc, ts')
      else
        match parseUntil fuel COMMA_PREC ts with
        | Except.error e => Except.error e
        | Except.ok (a, ts') =>
            let ts'' := if atToken "," ts' then ts'.drop 1 else ts'
            parseArgs fuel fname (acc ++ [a]) ts''

end

/-- Recursion bound for a whole parse: generous enough that `outOfFuel` is
never reached on inputs whose parse terminates (each recursive step consumes
fuel at most a constant number of times per token). -/
def bigFuel (ts : List Token) : Nat := 100 * ts.length + 100

/-- `Parser.Parse` as the tests and `main` use it (`p.Parse()` via
`ParseShell`): run `ParseUntil(0)` on the token stream and return the root
tree. -/
def parse (ts : List Token) : Except ParseErr ArithExpr :=
  match parseUntil (bigFuel ts) 0 ts with
  | Except.error e => Except.error e
  | Except.ok (tree, _) => Except.ok tree

/-- An operator/punctuation token: its lexeme is both type and value. -/
def tok (t : String) : Token := { type := t, val := t }

/-- A `number` token carrying its lexeme. -/
def numTok (s : String) : Token := { type := "number", val := s }

/-- A `name` token carrying its lexeme. -/
def nameTok (s : String) : Token := { type := "name", val := s }

/-- The end-of-stream token. -/
def eofTok : Token := { type := "eof", val := "" }

/-- The observable outcome of one run of `main(argv)` in
`typed_arith_parse.py`.  `usage` is the missing-argument path; `output` is a
successful parse printed to stdout; `errorThenCrash` is the parse-failure
path: the handler prints the error to stderr, but the following
`print(tree)` sits outside the `try`/`except` and runs unconditionally, and
since `tree` was never bound it raises an uncaught `NameError`. -/
inductive MainOutcome where
  | usage
  | output (tree : ArithExpr)
  | errorThenCrash (e : ParseErr)

/-- Embedding of `main(argv)`: `arg` is `argv[1]` as lexed by the external
tokenizer (`Option.none` when the argument is missing and `argv[1]` raises
`IndexError`). -/
def main_ (arg : Option (List Token)) : MainOutcome :=
  match arg with
  | Option.none => MainOutcome.usage
  | some ts =>
      match parse ts with
      | Except.ok tree => MainOutcome.output tree
      | Except.error e => MainOutcome.errorThenCrash e

/-! ## Concrete example schemas and instances used in the theorems -/

/-- Does `_SetDefaults` assign this field a default?  (The match
discriminator of its loop: `Maybe` and `Array` fields and nothing else.) -/
def isDefaulted : TypeDesc → Bool
  | TypeDesc.maybeT _ => true
  | TypeDesc.arrayT _ => true
  | _ => false

/-- An example registered type with three required `Int` fields. -/
def tyABC : Fields :=
  [("a", TypeDesc.intT), ("b", TypeDesc.intT), ("c", TypeDesc.intT)]

/-- An example registered type with a single `Maybe(Int)` field. -/
def tyMaybe : Fields := [("m", TypeDesc.maybeT TypeDesc.intT)]

/-- The `tyABC` instance state after positionally assigning `a` and `b`. -/
def instAB : Inst :=
  { dict := [("a", PyVal.int 1), ("b", PyVal.int 2)],
    assigned := [("a", true), ("b", true), ("c", false)] }

/-- The `tyABC` instance state after positionally assigning all fields. -/
def instABCFull : Inst :=
  { dict := [("a", PyVal.int 1), ("b", PyVal.int 2), ("c", PyVal.int 3)],
    assigned := [("a", true), ("b", true), ("c", true)] }

/-- The `tyABC` instance state after positionally assigning only `a`. -/
def instA : Inst :=
  { dict := [("a", PyVal.int 1)],
    assigned := [("a", true), ("b", false), ("c", false)] }

/-- An example compound Sum: two constructors, at least one with fields. -/
def exprConsDefs : List ConsDef :=
  [{ name := "Const", fields := [("val", TypeDesc.intT)] },
   { name := "ArithVar", fields := [("name", TypeDesc.strT)] }]

/-! ## Theorems -/

/-- C2 (counterexample): the claim says a Bool value is never accepted where
an Int is declared, but `_CheckType` uses `isinstance(value, int)` and
Python's `bool` is a subclass of `int`, so `True` passes the `Int` check. -/
theorem checkType_accepts_bool_for_int :
    _CheckType (PyVal.bool true) TypeDesc.intT = some true := rfl

/-- C2 (amended): `Str` accepts exactly strings, `Bool` accepts exactly
bools, and `Int` accepts ints and, because Python's `bool` subclasses `int`,
also bools; every other cross-primitive combination is rejected.  So an Int
value is not accepted where Bool is declared, but a Bool value is accepted
where Int is declared. -/
theorem checkType_primitive_matrix :
    (∀ s, _CheckType (PyVal.str s) TypeDesc.strT = some true) ∧
    (∀ i, _CheckType (PyVal.int i) TypeDesc.intT = some true) ∧
    (∀ b, _CheckType (PyVal.bool b) TypeDesc.boolT = some true) ∧
    (∀ b, _CheckType (PyVal.bool b) TypeDesc.intT = some true) ∧
    (∀ i, _CheckType (PyVal.int i) TypeDesc.boolT = some false) ∧
    (∀ i, _CheckType (PyVal.int i) TypeDesc.strT = some false) ∧
    (∀ s, _CheckType (PyVal.str s) TypeDesc.intT = some false) ∧
    (∀ s, _CheckType (PyVal.str s) TypeDesc.boolT = some false) ∧
    (∀ b, _CheckType (PyVal.bool b) TypeDesc.strT = some false) :=
  ⟨fun _ => rfl, fun _ => rfl, fun _ => rfl, fun _ => rfl, fun _ => rfl,
   fun _ => rfl, fun _ => rfl, fun _ => rfl, fun _ => rfl⟩

/-- C3 (evaluation at the failing input): `LeftIncDec` does require an
assignable left operand, so `1++` fails; but although it mutates
`token.type` to `'post++'` before wrapping, the node it builds takes
`token.val`, which the mutation leaves as `'++'` — so `x++` parses to
`ArithUnary('++', ArithVar('x'))`, not to the claimed
`Unary('post++', Var(x))`. -/
theorem postfix_incdec_eval :
    parse [nameTok "x", tok "++", eofTok] =
      Except.ok (ArithExpr.ArithUnary "++" (ArithExpr.ArithVar "x")) ∧
    parse [numTok "1", tok "++", eofTok] = Except.error ParseErr.cantAssign :=
  ⟨rfl, rfl⟩

/-- C4 (counterexample): the claim says arguments are parsed at a binding
power distinct from the bare `,` operator's binding power, but
`LeftFuncCall` parses each argument at `COMMA_PREC` (see `parseArgs`) and
the `,` operator is registered at exactly `COMMA_PREC` as well — the two
binding powers are the same number, 1, not distinct. -/
theorem funcCall_arg_bp_equals_comma_bp :
    leftLookup "," = some (COMMA_PREC, COMMA_PREC, LedKind.binaryOp) := rfl

/-- C4 (amended): the callee must be a plain variable reference (`1(2)`
fails), and each argument is parsed at `COMMA_PREC` — the same binding
power at which the bare `,` operator is registered, not a distinct one;
argument separation still never conflicts with the comma operator because
`ParseUntil` only consumes an operator whose left binding power is strictly
greater than the bound, so `f(1,2)` parses to
`Call('f', [Const(1), Const(2)])`. -/
theorem funcCall_parse_behavior :
    parse [nameTok "f", tok "(", numTok "1", tok ",", numTok "2", tok ")",
           eofTok] =
      Except.ok (ArithExpr.FuncCall "f"
        [ArithExpr.Const "1", ArithExpr.Const "2"]) ∧
    parse [numTok "1", tok "(", numTok "2", tok ")", eofTok] =
      Except.error ParseErr.cantCall ∧
    leftLookup "," = some (COMMA_PREC, COMMA_PREC, LedKind.binaryOp) :=
  ⟨rfl, rfl, rfl⟩

/-- C5: `**` is registered right-associatively — its table entry stores a
right binding power one less than its 27 left binding power, which is the
bound its handler passes to `ParseUntil` — so `2**3**2` parses to
`Binary('**', Const(2), Binary('**', Const(3), Const(2)))`. -/
theorem power_right_assoc :
    leftLookup "**" = some (27, 27 - 1, LedKind.binaryOp) ∧
    parse [numTok "2", tok "**", numTok "3", tok "**", numTok "2", eofTok] =
      Except.ok (ArithExpr.ArithBinary "**" (ArithExpr.Const "2")
        (ArithExpr.ArithBinary "**" (ArithExpr.Const "3")
          (ArithExpr.Const "2"))) :=
  ⟨rfl, rfl⟩

/-- C6 (evaluation at the failing input): with the argument present but
unparseable (`1++`), `main` prints the parse error to stderr and then,
because `print(tree)` stands after the `try`/`except` instead of in an
`else`, evaluates the unbound `tree` and dies with an uncaught `NameError`
— a third outcome beyond the claimed tree-output and error-output.  The
missing-argument path prints usage as claimed. -/
theorem main_parse_failure_then_crash :
    main_ (some [numTok "1", tok "++", eofTok]) =
      MainOutcome.errorThenCrash ParseErr.cantAssign ∧
    main_ Option.none = MainOutcome.usage :=
  ⟨rfl, rfl⟩

/-- The required-field sweep of `_Init` raises `ValueError` for exactly the
first field name, in declaration order, whose `_assigned` entry is not
`True`. -/
theorem requiredCheck_error_of_find (inst : Inst) :
    ∀ (names : List String) (n : String),
      names.find? (fun m => lookupB inst.assigned m != some true) = some n →
      lookupB inst.assigned n = some false →
      requiredCheck inst names = Except.error (InitErr.missingField n) := by
  intro names
  induction names with
  | nil => intro n hfind _; simp at hfind
  | cons m ms ih =>
      intro n hfind hn
      cases hm : lookupB inst.assigned m with
      | none =>
          rw [List.find?_cons_of_pos _ (by simp [hm])] at hfind
          simp at hfind
          rw [← hfind] at hn
          rw [hn] at hm
          exact absurd hm (by simp)
      | some b =>
          cases b with
          | true =>
              rw [List.find?_cons_of_neg _ (by simp [hm])] at hfind
              simp only [requiredCheck, hm]
              exact ih n hfind hn
          | false =>
              rw [List.find?_cons_of_pos _ (by simp [hm])] at hfind
              simp at hfind
              rw [← hfind]
              simp only [requiredCheck, hm]

/-- C1 (counterexample): constructing `tyABC` from one positional value
leaves both `b` and `c` unassigned, yet the failure is a `ValueError`
naming only `b` — the loop raises on the first missing field instead of
collecting every missing field as the claim states. -/
theorem construct_missing_field_names_only_first :
    construct tyABC [PyVal.int 1] [] =
      Except.error (InitErr.missingField "b") := rfl

/-- C1 (amended): when `Construct` is given one or more values and every
supplied value applies without error, a non-Maybe field left unassigned
makes construction fail with an error naming the first unassigned field in
declaration order (and only that one). -/
theorem construct_missing_field_first_in_order
    (fields : Fields) (args : List PyVal) (kwargs : List (String × PyVal))
    (i0 i1 i2 : Inst) (n : String)
    (hne : (args.isEmpty && kwargs.isEmpty) = false)
    (hdef : _SetDefaults fields fields (initialInst fields) = Except.ok i0)
    (hargs : applyArgs fields (fieldNames fields) i0 args = Except.ok i1)
    (hkw : applyKwargs fields i1 kwargs = Except.ok i2)
    (hfind : (fieldNames fields).find?
        (fun m => lookupB i2.assigned m != some true) = some n)
    (hn : lookupB i2.assigned n = some false) :
    construct fields args kwargs = Except.error (InitErr.missingField n) := by
  simp only [construct, hdef, hne, Bool.false_eq_true, if_false, _Init,
    hargs, hkw]
  rw [requiredCheck_error_of_find i2 (fieldNames fields) n hfind hn]

/-- C1 (witness): two positional values on `tyABC` leave only `c`
unassigned, and construction fails naming `c`. -/
theorem construct_missing_field_first_in_order_witness :
    construct tyABC [PyVal.int 1, PyVal.int 2] [] =
      Except.error (InitErr.missingField "c") :=
  construct_missing_field_first_in_order tyABC
    [PyVal.int 1, PyVal.int 2] [] (initialInst tyABC) instAB instAB "c"
    rfl rfl rfl rfl rfl rfl

/-- The keyword loop processes an appended suffix from the state the prefix
left behind, when the prefix applies without error. -/
theorem applyKwargs_append (fields : Fields)
    (xs ys : List (String × PyVal)) :
    ∀ (inst i : Inst), applyKwargs fields inst xs = Except.ok i →
      applyKwargs fields inst (xs ++ ys) = applyKwargs fields i ys := by
  induction xs with
  | nil =>
      intro inst i h
      simp only [applyKwargs] at h
      cases h
      simp
  | cons p ps ih =>
      intro inst i h
      obtain ⟨n, v⟩ := p
      simp only [applyKwargs] at h ⊢
      cases hl : lookupB inst.assigned n with
      | none => rw [hl] at h; exact absurd h (by simp)
      | some b =>
          rw [hl] at h
          cases b with
          | true => exact absurd h (by simp)
          | false =>
              cases hs : setattr_ fields inst n v with
              | error e => rw [hs] at h; exact absurd h (by simp)
              | ok inst' =>
                  rw [hs] at h
                  simp only [List.cons_append]
                  exact ih inst' i h

/-- C7 (counterexample): the claim says `Construct` accepts fields by name,
but `_SetDefaults` pre-assigns every `Maybe` field through `__setattr__`,
so supplying `tyMaybe`'s only field by name — once, by the caller — trips
the duplicate-assignment check and raises `TypeError` naming `m`. -/
theorem construct_maybe_by_name_duplicate :
    construct tyMaybe [] [("m", PyVal.int 5)] =
      Except.error (InitErr.dupAssign "m") := rfl

/-- C7 (amended): `Construct` accepts fields by position, by name, or both,
except that fields pre-assigned by defaulting (`Maybe`/`Array` fields) can
only be re-supplied positionally; a keyword naming any field already marked
assigned — by an earlier positional value, or by defaulting — fails
immediately with a `TypeError` naming that field, so a field is never
assigned twice. -/
theorem construct_assignment_modes_and_duplicates :
    (∀ (fields : Fields) (args : List PyVal)
       (kwpre : List (String × PyVal)) (n : String) (v : PyVal)
       (kwrest : List (String × PyVal)) (i0 i1 i2 : Inst),
       _SetDefaults fields fields (initialInst fields) = Except.ok i0 →
       applyArgs fields (fieldNames fields) i0 args = Except.ok i1 →
       applyKwargs fields i1 kwpre = Except.ok i2 →
       lookupB i2.assigned n = some true →
       construct fields args (kwpre ++ (n, v) :: kwrest) =
         Except.error (InitErr.dupAssign n)) ∧
    (∃ i, construct tyABC [PyVal.int 1, PyVal.int 2, PyVal.int 3] [] =
       Except.ok i) ∧
    (∃ i, construct tyABC []
       [("a", PyVal.int 1), ("b", PyVal.int 2), ("c", PyVal.int 3)] =
       Except.ok i) ∧
    (∃ i, construct tyABC [PyVal.int 1]
       [("b", PyVal.int 2), ("c", PyVal.int 3)] = Except.ok i) := by
  refine ⟨?_, ⟨_, rfl⟩, ⟨_, rfl⟩, ⟨_, rfl⟩⟩
  intro fields args kwpre n v kwrest i0 i1 i2 hdef hargs hkw hdup
  have hne : (args.isEmpty && (kwpre ++ (n, v) :: kwrest).isEmpty) = false := by
    have : (kwpre ++ (n, v) :: kwrest).isEmpty = false := by
      cases kwpre <;> simp
    simp [this]
  simp only [construct, hdef, hne, Bool.false_eq_true, if_false, _Init, hargs]
  rw [applyKwargs_append fields kwpre ((n, v) :: kwrest) i1 i2 hkw]
  simp only [applyKwargs, hdup]

/-- C7 (witness): assigning `a` positionally and again by name on `tyABC`
fails immediately with the duplicate-assignment error naming `a`. -/
theorem construct_assignment_modes_and_duplicates_witness :
    construct tyABC [PyVal.int 1] [("a", PyVal.int 9)] =
      Except.error (InitErr.dupAssign "a") :=
  construct_assignment_modes_and_duplicates.1 tyABC [PyVal.int 1] []
    "a" (PyVal.int 9) [] (initialInst tyABC) instA instA rfl rfl rfl rfl

/-- When the positional values outnumber the field names and the in-range
prefix applies without error, the positional loop runs off the end of
`field_names` and raises `IndexError`. -/
theorem applyArgs_overflow (fields : Fields) :
    ∀ (names : List String) (inst i1 : Inst) (args : List PyVal),
      names.length < args.length →
      applyArgs fields names inst (args.take names.length) = Except.ok i1 →
      applyArgs fields names inst args = Except.error InitErr.indexError := by
  intro names
  induction names with
  | nil =>
      intro inst i1 args hlen _
      cases args with
      | nil => simp at hlen
      | cons v vs => simp [applyArgs]
  | cons m ms ih =>
      intro inst i1 args hlen hpre
      cases args with
      | nil => simp at hlen
      | cons v vs =>
          simp only [List.length_cons, List.take_succ_cons] at hlen hpre
          simp only [applyArgs] at hpre ⊢
          cases hs : setattr_ fields inst m v with
          | error e => rw [hs] at hpre; exact absurd hpre (by simp)
          | ok inst' =>
              rw [hs] at hpre
              exact ih inst' i1 vs (by omega) hpre

/-- C10: giving `Construct` more positional values than the type has
declared fields (the in-range prefix applying without error) fails with the
out-of-range `IndexError` from `field_names[i]`, not with one of the
field-validation errors that carry a field name. -/
theorem construct_excess_positional_index_error
    (fields : Fields) (args : List PyVal) (kwargs : List (String × PyVal))
    (i0 i1 : Inst)
    (hdef : _SetDefaults fields fields (initialInst fields) = Except.ok i0)
    (hlen : (fieldNames fields).length < args.length)
    (hpre : applyArgs fields (fieldNames fields) i0
        (args.take (fieldNames fields).length) = Except.ok i1) :
    construct fields args kwargs = Except.error InitErr.indexError := by
  have hne : (args.isEmpty && kwargs.isEmpty) = false := by
    cases args with
    | nil => simp at hlen
    | cons v vs => simp
  simp only [construct, hdef, hne, Bool.false_eq_true, if_false, _Init]
  rw [applyArgs_overflow fields (fieldNames fields) i0 i1 args hlen hpre]

/-- C10 (witness): four positional values on the three-field `tyABC` raise
`IndexError`. -/
theorem construct_excess_positional_index_error_witness :
    construct tyABC [PyVal.int 1, PyVal.int 2, PyVal.int 3, PyVal.int 4] [] =
      Except.error InitErr.indexError :=
  construct_excess_positional_index_error tyABC
    [PyVal.int 1, PyVal.int 2, PyVal.int 3, PyVal.int 4] []
    (initialInst tyABC) instABCFull rfl (by simp [fieldNames, tyABC]) rfl

/-- The default a `Maybe` field receives always passes the type check of
`__setattr__` — the sentinel is matched to the wrapped descriptor. -/
theorem checkDefault (child : TypeDesc) :
    _CheckType (defaultFor child) (TypeDesc.maybeT child) = some true := by
  cases child <;> rfl

/-- The empty list an `Array` field receives always passes the type check
of `__setattr__`. -/
theorem checkEmptyArray (d : TypeDesc) :
    _CheckType (PyVal.list []) (TypeDesc.arrayT d) = some true := rfl

/-- Marking one key assigned leaves every other key's entry unchanged. -/
theorem lookupB_setB_ne (m n : String) (hne : m ≠ n) :
    ∀ (a : List (String × Bool)), lookupB (setB a m) n = lookupB a n := by
  intro a
  induction a with
  | nil => rfl
  | cons p ps ih =>
      by_cases hp : p.1 = m
      · have hpn : ¬ (p.1 = n) := fun h => hne (hp ▸ h)
        simp only [setB, List.map_cons, if_pos hp, lookupB]
        rw [List.find?_cons_of_neg _ (by simp [hpn]),
            List.find?_cons_of_neg _ (by simp [hpn])]
        exact ih
      · simp only [setB, List.map_cons, if_neg hp]
        by_cases hpn : p.1 = n
        · simp only [lookupB]
          rw [List.find?_cons_of_pos _ (by simp [hpn]),
              List.find?_cons_of_pos _ (by simp [hpn])]
        · simp only [lookupB]
          rw [List.find?_cons_of_neg _ (by simp [hpn]),
              List.find?_cons_of_neg _ (by simp [hpn])]
          exact ih

/-- In the freshly initialized `_assigned` dictionary every field name maps
to `False`. -/
theorem lookupB_const_false (n : String) :
    ∀ (names : List String), n ∈ names →
      lookupB (names.map (fun m => (m, false))) n = some false := by
  intro names
  induction names with
  | nil => intro h; simp at h
  | cons m ms ih =>
      intro h
      by_cases hm : m = n
      · simp only [List.map_cons, lookupB]
        rw [List.find?_cons_of_pos _ (by simp [hm])]
        rfl
      · have hms : n ∈ ms := by
          rcases List.mem_cons.mp h with h1 | h1
          · exact absurd h1.symm hm
          · exact h1
        simp only [List.map_cons, lookupB]
        rw [List.find?_cons_of_neg _ (by simp [hm])]
        exact ih hms

/-- With pairwise-distinct field names, `LookupFieldType` returns the
declared descriptor of each field. -/
theorem lookupField_of_nodup :
    ∀ (fields : Fields), (fieldNames fields).Nodup →
      ∀ p ∈ fields, lookupField fields p.1 = some p.2 := by
  intro fields
  induction fields with
  | nil => intro _ p hp; simp at hp
  | cons q qs ih =>
      intro hnd p hp
      have hcons : q.1 ∉ fieldNames qs ∧ (fieldNames qs).Nodup :=
        List.nodup_cons.mp hnd
      rcases List.mem_cons.mp hp with h1 | h1
      · subst h1
        simp only [lookupField]
        rw [List.find?_cons_of_pos _ (by simp)]
        rfl
      · have hne : ¬ (q.1 = p.1) := by
          intro he
          exact hcons.1 (he ▸ List.mem_map_of_mem Prod.fst h1)
        simp only [lookupField]
        rw [List.find?_cons_of_neg _ (by simp [hne])]
        exact ih hcons.2 p h1

/-- `_SetDefaults` always succeeds (every default passes the type check),
and it leaves untouched the `_assigned` entry of every name that is not a
`Maybe`- or `Array`-typed field of the processed list. -/
theorem setDefaults_preserves (fields : Fields) :
    ∀ (rest : List (String × TypeDesc)) (inst : Inst),
      (∀ p ∈ rest, lookupField fields p.1 = some p.2) →
      ∃ inst', _SetDefaults fields rest inst = Except.ok inst' ∧
        ∀ n, (∀ p ∈ rest, isDefaulted p.2 = true → p.1 ≠ n) →
          lookupB inst'.assigned n = lookupB inst.assigned n := by
  intro rest
  induction rest with
  | nil => intro inst _; exact ⟨inst, rfl, fun n _ => rfl⟩
  | cons q qs ih =>
      intro inst hsub
      obtain ⟨m, d⟩ := q
      have hm : lookupField fields m = some d := hsub (m, d) (by simp)
      have hsub' : ∀ p ∈ qs, lookupField fields p.1 = some p.2 :=
        fun p hp => hsub p (List.mem_cons_of_mem _ hp)
      cases d
      case maybeT child =>
          have hset : setattr_ fields inst m (defaultFor child) =
              Except.ok { dict := setV inst.dict m (defaultFor child),
                          assigned := setB inst.assigned m } := by
            simp only [setattr_, hm, checkDefault child]
          obtain ⟨inst', heq, hpres⟩ := ih
            { dict := setV inst.dict m (defaultFor child),
              assigned := setB inst.assigned m } hsub'
          refine ⟨inst', ?_, ?_⟩
          · simp only [_SetDefaults, hset]; exact heq
          · intro n hn
            have hmn : m ≠ n :=
              hn (m, TypeDesc.maybeT child) (by simp) rfl
            rw [hpres n (fun p hp hd => hn p (List.mem_cons_of_mem _ hp) hd)]
            exact lookupB_setB_ne m n hmn inst.assigned
      case arrayT d2 =>
          have hset : setattr_ fields inst m (PyVal.list []) =
              Except.ok { dict := setV inst.dict m (PyVal.list []),
                          assigned := setB inst.assigned m } := by
            simp only [setattr_, hm, checkEmptyArray d2]
          obtain ⟨inst', heq, hpres⟩ := ih
            { dict := setV inst.dict m (PyVal.list []),
              assigned := setB inst.assigned m } hsub'
          refine ⟨inst', ?_, ?_⟩
          · simp only [_SetDefaults, hset]; exact heq
          · intro n hn
            have hmn : m ≠ n :=
              hn (m, TypeDesc.arrayT d2) (by simp) rfl
            rw [hpres n (fun p hp hd => hn p (List.mem_cons_of_mem _ hp) hd)]
            exact lookupB_setB_ne m n hmn inst.assigned
      all_goals
        obtain ⟨inst', heq, hpres⟩ := ih inst hsub'
        exact ⟨inst', heq,
          fun n hn => hpres n (fun p hp hd => hn p (List.mem_cons_of_mem _ hp) hd)⟩

/-- C9: calling `Construct` with no positional and no keyword values skips
`_Init` entirely — the missing-required-field sweep never runs — and
succeeds even when the type has required (non-Maybe, non-Array) fields,
every such field remaining unassigned in the result. -/
theorem construct_empty_skips_required_check
    (fields : Fields) (hnd : (fieldNames fields).Nodup) :
    ∃ inst, construct fields [] [] = Except.ok inst ∧
      ∀ n d, (n, d) ∈ fields → isDefaulted d = false →
        lookupB inst.assigned n = some false := by
  obtain ⟨inst', heq, hpres⟩ := setDefaults_preserves fields fields
    (initialInst fields) (lookupField_of_nodup fields hnd)
  refine ⟨inst', ?_, ?_⟩
  · simp only [construct, heq, List.isEmpty_nil, Bool.and_self, if_true]
  · intro n d hmem hndef
    have hinit : lookupB (initialInst fields).assigned n = some false :=
      lookupB_const_false n (fieldNames fields)
        (List.mem_map_of_mem Prod.fst hmem)
    rw [← hinit]
    apply hpres n
    intro p hp hdef hpn
    have hpeq : p = (n, d) := by
      apply List.inj_on_of_nodup_map (by simpa [fieldNames] using hnd) hp hmem
      simpa using hpn
    rw [hpeq] at hdef
    simp at hdef
    exact absurd hdef (by simp [hndef])

/-- C9 (witness): `tyABC` has three required fields, yet constructing it
with nothing supplied succeeds, all three left unassigned. -/
theorem construct_empty_skips_required_check_witness :
    ∃ inst, construct tyABC [] [] = Except.ok inst ∧
      ∀ n d, (n, d) ∈ tyABC → isDefaulted d = false →
        lookupB inst.assigned n = some false :=
  construct_empty_skips_required_check tyABC (by decide)

/-- C8: in the compound-Sum branch of `MakeTypes`, the tag attached to the
`k`-th declared constructor is `k + 1` — the 1-based declaration position —
and the tags of one Sum are pairwise distinct. -/
theorem makeTypes_compound_tags (cs : List ConsDef)
    (_h : is_simple cs = false) :
    (∀ k (hk : k < cs.length),
        (sumConsTags cs).get? k = some ((cs.get ⟨k, hk⟩).name, k + 1)) ∧
    ((sumConsTags cs).map Prod.snd).Nodup := by
  constructor
  · intro k hk
    have henum : cs.enum.get? k = some (k, cs.get ⟨k, hk⟩) := by
      rw [List.get?_enum, List.get?_eq_get hk]
      rfl
    simp [sumConsTags, List.get?_map, henum]
    exact ⟨cs[k], List.getElem?_eq_getElem hk, rfl⟩
  · have h1 : (sumConsTags cs).map Prod.snd =
        (cs.enum.map Prod.fst).map (fun i => i + 1) := by
      simp only [sumConsTags, List.map_map]
      rfl
    rw [h1]
    exact (List.nodup_enum_map_fst cs).map (fun a b hab => by omega)

/-- C8 (witness): the two-constructor compound Sum `exprConsDefs` gets tags
1 and 2 in declaration order, pairwise distinct. -/
theorem makeTypes_compound_tags_witness :
    (sumConsTags exprConsDefs).get? 1 = some ("ArithVar", 2) ∧
    ((sumConsTags exprConsDefs).map Prod.snd).Nodup :=
  ⟨(makeTypes_compound_tags exprConsDefs rfl).1 1 (by decide),
   (makeTypes_compound_tags exprConsDefs rfl).2⟩

end Oil
